import Mathlib

/-!
Verification of the lingvo input-pipeline orchestration core
(`lingvo/core/ops/input_common.h`, class `InputOp`).

The constructor of `InputOp` is embedded as pure functions:
seed derivation per source index, comma-splitting of the file pattern
(TensorFlow `str_util::Split`, which keeps empty tokens and returns an
empty list on empty input), yielder construction, stream composition and
batcher construction.  `Compute` is embedded as `computeOp`.  C++ `int64`
values are modelled as `Int` (the claims are about in-range values; signed
overflow is undefined behaviour in the source and outside the model), and
C++ `%` on `int64` is truncated remainder, `Int.tmod`.  Strings are
modelled as their character lists; the weight element type (`float` in the
source) is an opaque type parameter `W` because only the count and the
positional pairing of weights matter here.  Tensors in `Compute` are an
opaque type parameter `T`.
-/

namespace Lingvo

/-- Largest `int32` value, `std::numeric_limits<int32>::max()`. -/
def int32_max : Int := 2147483647

/-- Seed handed to the i-th yielder (constructor lines 77-86): 0 is passed
through when the base seed is 0; otherwise `(seed + i) %` (truncated
remainder) `(INT32_MAX - 1)`, incremented by 1 when that remainder is 0. -/
def derive (file_random_seed : Int) (i : Nat) : Int :=
  if file_random_seed = 0 then 0
  else if Int.tmod (file_random_seed + i) (int32_max - 1) = 0 then
    Int.tmod (file_random_seed + i) (int32_max - 1) + 1
  else
    Int.tmod (file_random_seed + i) (int32_max - 1)

/-- Inner loop of TensorFlow `str_util::Split` on one delimiter `,`:
walk the characters, closing the current token at each comma and at the
end of the input; empty tokens are kept. -/
def splitRun : List Char → List Char → List (List Char)
  | [], cur => [cur.reverse]
  | c :: rest, cur =>
    if c = ',' then cur.reverse :: splitRun rest []
    else splitRun rest (c :: cur)

/-- TensorFlow `str_util::Split(text, ',')`: the empty input yields an empty
list; otherwise the tokens between commas, empty tokens kept. -/
def tfSplit (s : List Char) : List (List Char) :=
  if s = [] then [] else splitRun s []

/-- The distinct fatal errors raised by the embedded code paths
(`OP_REQUIRES` messages and the modelled batcher check). -/
inductive OpError where
  | bucketUpperBoundNotSorted
  | weightPatternMismatch
  | bucketLengthMismatch
  | unexpectedBatch
  deriving DecidableEq

/-- Source-set parsing (constructor lines 59-72): empty weights fall back to
the single raw pattern; otherwise the pattern is comma-split and the piece
count must equal the weight count. -/
def filePatterns {W : Type} (file_pattern : List Char) (input_source_weights : List W) :
    Except OpError (List (List Char)) :=
  if input_source_weights.isEmpty then Except.ok [file_pattern]
  else
    let ps := tfSplit file_pattern
    if ps.length = input_source_weights.length then Except.ok ps
    else Except.error OpError.weightPatternMismatch

/-- `std::is_sorted` on the bound list: every element at most its successor. -/
def is_sorted : List Int → Bool
  | [] => true
  | [_] => true
  | a :: b :: rest => decide (a ≤ b) && is_sorted (b :: rest)

/-- `BasicRecordYielder::Options` as filled in by the constructor. -/
structure YielderOptions where
  file_pattern : List Char
  seed : Int
  bufsize : Int
  parallelism : Int

/-- A record-yielder value: either a basic per-source yielder or the weighted
mixing yielder over a list of underlying yielders. -/
inductive RecordYielder (W : Type) where
  | basic (opts : YielderOptions)
  | weightedMix (seed : Int) (yielders : List (RecordYielder W)) (weights : List W)

instance {W : Type} : Inhabited (RecordYielder W) :=
  ⟨RecordYielder.basic ⟨[], 0, 0, 0⟩⟩

/-- The yielder-construction loop (lines 74-90): one basic yielder per
pattern, seeded by `derive` at its position. -/
def mkYielders (W : Type) (file_random_seed file_buffer_size file_parallelism : Int)
    (ps : List (List Char)) : List (RecordYielder W) :=
  ps.enum.map (fun p =>
    RecordYielder.basic ⟨p.2, derive file_random_seed p.1, file_buffer_size, file_parallelism⟩)

/-- Stream composition (lines 91-97): more than one yielder is wrapped in a
weighted mixing yielder; otherwise the front of the list is used as-is. -/
def composeYielders {W : Type} (file_random_seed : Int)
    (yielders : List (RecordYielder W)) (input_source_weights : List W) :
    RecordYielder W :=
  if 1 < yielders.length then
    RecordYielder.weightedMix file_random_seed yielders input_source_weights
  else yielders.headI

/-- `RecordBatcher::Options` as filled in by the constructor. -/
structure BatcherOptions where
  bucket_upper_bound : List Int
  bucket_batch_limit : List Int
  flush_every_n : Int
  num_threads : Int

/-- The constructed batcher: its options and the yielder it owns. -/
structure RecordBatcher (W : Type) where
  opts : BatcherOptions
  yielder : RecordYielder W

/-- Modelled from the spec: the `RecordBatcher` constructor lives in
`record_batcher.cc`, which is not among the given sources; per the spec,
construction validates that `bucket_upper_bound` and `bucket_batch_limit`
have equal lengths and a mismatch is a fatal configuration error raised at
construction, before any record is pulled. -/
def recordBatcherNew {W : Type} (opts : BatcherOptions) (yielder : RecordYielder W) :
    Except OpError (RecordBatcher W) :=
  if opts.bucket_upper_bound.length = opts.bucket_batch_limit.length then
    Except.ok ⟨opts, yielder⟩
  else Except.error OpError.bucketLengthMismatch

/-- The whole `InputOp` constructor: sorted-bounds check first, then source
parsing, yielder construction, composition, and batcher construction. -/
def constructInputOp {W : Type} (file_pattern : List Char) (input_source_weights : List W)
    (file_random_seed file_buffer_size file_parallelism : Int)
    (bucket_upper_bound bucket_batch_limit : List Int)
    (flush_every_n num_threads : Int) : Except OpError (RecordBatcher W) :=
  if is_sorted bucket_upper_bound then
    match filePatterns file_pattern input_source_weights with
    | Except.error e => Except.error e
    | Except.ok ps =>
      let yielders : List (RecordYielder W) :=
        mkYielders W file_random_seed file_buffer_size file_parallelism ps
      recordBatcherNew ⟨bucket_upper_bound, bucket_batch_limit, flush_every_n, num_threads⟩
        (composeYielders file_random_seed yielders input_source_weights)
  else Except.error OpError.bucketUpperBoundNotSorted

/-- `InputOp::Compute` (lines 110-120): the batch produced by the batcher is
checked against the expected output count; on mismatch the call errors with
no outputs set, otherwise output slot i is set to batch element i in order. -/
def computeOp {T : Type} (batch : List T) (num_outputs : Nat) : Except OpError (List T) :=
  if batch.length = num_outputs then
    Except.ok (batch.enum.foldl (fun out p => out ++ [p.2]) [])
  else Except.error OpError.unexpectedBatch

theorem foldl_push_eq_append {T : Type} (l : List (Nat × T)) (acc : List T) :
    List.foldl (fun out p => out ++ [p.2]) acc l = acc ++ l.map Prod.snd := by
  induction l generalizing acc with
  | nil => simp
  | cons h t ih => simp [List.foldl_cons, ih]

theorem computeOp_out_eq {T : Type} (batch : List T) :
    batch.enum.foldl (fun out p => out ++ [p.2]) [] = batch := by
  rw [foldl_push_eq_append]
  simp [List.enum_map_snd]

theorem filePatterns_error_eq {W : Type} (fp : List Char) (w : List W) (e : OpError)
    (h : filePatterns fp w = Except.error e) : e = OpError.weightPatternMismatch := by
  unfold filePatterns at h
  by_cases hw : w.isEmpty
  · simp [hw] at h
  · by_cases hl : (tfSplit fp).length = w.length
    · simp [hw, hl] at h
    · simp [hw, hl] at h
      exact h.symm

/-- Claim C1: for every base seed s with 0 < s and every source index i, the
derived seed is (s + i) mod (INT32_MAX - 1), replaced by 1 when that
remainder is 0; the derivation is a pure function of (s, i) and never
returns 0. -/
theorem derive_pos (s : Int) (hs : 0 < s) (i : Nat) :
    derive s i =
      (if (s + i) % (int32_max - 1) = 0 then 1 else (s + i) % (int32_max - 1))
    ∧ derive s i ≠ 0
    ∧ (∀ (t : Int) (j : Nat), t = s → j = i → derive t j = derive s i) := by
  have hns : ¬s = 0 := by omega
  have ha : (0 : Int) ≤ s + i := by
    have : (0 : Int) ≤ (i : Int) := Int.ofNat_nonneg i
    omega
  have hb : (0 : Int) ≤ int32_max - 1 := by norm_num [int32_max]
  have ht : Int.tmod (s + i) (int32_max - 1) = (s + i) % (int32_max - 1) :=
    Int.tmod_eq_emod ha hb
  refine ⟨?_, ?_, ?_⟩
  · by_cases h : (s + i) % (int32_max - 1) = 0
    · simp [derive, hns, ht, h]
    · simp [derive, hns, ht, h]
  · by_cases h : (s + i) % (int32_max - 1) = 0
    · simp [derive, hns, ht, h]
    · simp [derive, hns, ht, h]
  · intro t j h1 h2
    rw [h1, h2]

theorem derive_pos_witness : derive 5 3 = 8 ∧ derive 5 3 ≠ 0 := by
  have h := derive_pos 5 (by decide) 3
  refine ⟨?_, h.2.1⟩
  rw [h.1]
  decide

/-- Claim C8: with base seed 0 the derived seed is 0 for every source
index. -/
theorem derive_zero_seed (i : Nat) : derive 0 i = 0 := by
  simp [derive]

/-- Claim C10: for negative base seeds the same formula is applied with C++
truncated remainder (`Int.tmod`), so the result can be negative; the add-1
adjustment fires only when the remainder is exactly 0, and the result is
deterministic in (s, i). -/
theorem derive_neg (s : Int) (hs : s < 0) (i : Nat) :
    (derive s i =
      (if Int.tmod (s + i) (int32_max - 1) = 0
       then Int.tmod (s + i) (int32_max - 1) + 1
       else Int.tmod (s + i) (int32_max - 1)))
    ∧ (Int.tmod (s + i) (int32_max - 1) ≠ 0 →
        derive s i = Int.tmod (s + i) (int32_max - 1))
    ∧ derive (-3) 0 < 0
    ∧ (∀ (t : Int) (j : Nat), t = s → j = i → derive t j = derive s i) := by
  have hns : ¬s = 0 := by omega
  refine ⟨?_, ?_, by decide, ?_⟩
  · simp [derive, hns]
  · intro h
    simp [derive, hns, h]
  · intro t j h1 h2
    rw [h1, h2]

theorem derive_neg_witness : derive (-1) 2 = 1 ∧ derive (-3) 0 < 0 := by
  have h := derive_neg (-1) (by decide) 2
  refine ⟨?_, h.2.2.1⟩
  rw [h.1]
  decide

/-- Claim C2: `Compute` errors, setting no outputs, exactly when the batch
size differs from the expected output count; on a match every output slot i
below the batch size holds batch element i. -/
theorem compute_arity (T : Type) (batch : List T) (n : Nat) :
    (batch.length ≠ n → computeOp batch n = Except.error OpError.unexpectedBatch)
    ∧ (batch.length = n → ∃ out, computeOp batch n = Except.ok out
        ∧ out.length = batch.length
        ∧ ∀ i, i < batch.length → out.get? i = batch.get? i) := by
  constructor
  · intro h
    simp [computeOp, h]
  · intro h
    refine ⟨batch, ?_, rfl, fun i _ => rfl⟩
    simp [computeOp, h, computeOp_out_eq]

theorem compute_arity_witness :
    computeOp ([10, 20] : List Nat) 3 = Except.error OpError.unexpectedBatch
    ∧ ∃ out, computeOp ([10, 20] : List Nat) 2 = Except.ok out
        ∧ out.length = ([10, 20] : List Nat).length
        ∧ ∀ i, i < ([10, 20] : List Nat).length →
            out.get? i = ([10, 20] : List Nat).get? i :=
  ⟨(compute_arity Nat [10, 20] 3).1 (by decide),
   (compute_arity Nat [10, 20] 2).2 (by decide)⟩

/-- Claim C3: with a non-empty weights list, parsing comma-splits the raw
pattern and fails exactly when the piece count differs from the weight
count; on success the i-th pattern is paired with the i-th weight. -/
theorem parse_weighted (W : Type) (fp : List Char) (w : List W) (hw : w ≠ []) :
    (filePatterns fp w = Except.error OpError.weightPatternMismatch
        ↔ (tfSplit fp).length ≠ w.length)
    ∧ (∀ ps, filePatterns fp w = Except.ok ps →
        ps = tfSplit fp ∧ ps.length = w.length
        ∧ ∀ i, i < w.length →
            ∃ p wt, ps.get? i = some p ∧ w.get? i = some wt
              ∧ (ps.zip w).get? i = some (p, wt)) := by
  have hwe : ¬w.isEmpty := by
    cases w with
    | nil => exact absurd rfl hw
    | cons x xs => simp
  constructor
  · by_cases hl : (tfSplit fp).length = w.length
    · simp [filePatterns, hwe, hl]
    · simp [filePatterns, hwe, hl]
  · intro ps hps
    by_cases hl : (tfSplit fp).length = w.length
    · simp [filePatterns, hwe, hl] at hps
      subst hps
      refine ⟨rfl, hl, ?_⟩
      intro i hi
      have hip : i < (tfSplit fp).length := by omega
      refine ⟨(tfSplit fp).get ⟨i, hip⟩, w.get ⟨i, hi⟩, ?_, ?_, ?_⟩
      · exact List.get?_eq_get hip
      · exact List.get?_eq_get hi
      · exact (List.get?_zip_eq_some _ _ _ i).mpr
          ⟨List.get?_eq_get hip, List.get?_eq_get hi⟩
    · simp [filePatterns, hwe, hl] at hps

theorem parse_weighted_witness :
    filePatterns ['a'] ([5, 7] : List Nat) = Except.error OpError.weightPatternMismatch
    ∧ (∃ p wt, ([['a'], ['b']] : List (List Char)).get? 0 = some p
        ∧ ([5, 7] : List Nat).get? 0 = some wt
        ∧ (([['a'], ['b']] : List (List Char)).zip ([5, 7] : List Nat)).get? 0
            = some (p, wt)) := by
  constructor
  · exact (parse_weighted Nat ['a'] [5, 7] (by decide)).1.mpr (by decide)
  · have h := ((parse_weighted Nat ['a', ',', 'b'] [5, 7] (by decide)).2
      [['a'], ['b']] rfl).2.2 0 (by decide)
    exact h

/-- Claim C4: with an empty weights list parsing yields exactly one source
whose pattern is the whole raw string, with no splitting on commas. -/
theorem parse_legacy (W : Type) (fp : List Char) :
    filePatterns fp ([] : List W) = Except.ok [fp] := rfl

/-- Claim C5: construction fails with the unsorted-bounds error exactly when
`bucket_upper_bound` is not non-decreasing; the check runs at construction,
before anything else. -/
theorem construct_bucket_sorted (W : Type) (fp : List Char) (w : List W)
    (seed bufsz par : Int) (bub bbl : List Int) (flush nthreads : Int) :
    constructInputOp fp w seed bufsz par bub bbl flush nthreads
        = Except.error OpError.bucketUpperBoundNotSorted
      ↔ is_sorted bub = false := by
  by_cases hs : is_sorted bub
  · simp only [constructInputOp, hs, if_true]
    constructor
    · intro h
      rcases hfp : filePatterns fp w with e | ps
      · rw [hfp] at h
        have he := filePatterns_error_eq fp w e hfp
        simp [he] at h
      · rw [hfp] at h
        simp only [recordBatcherNew] at h
        by_cases hl : bub.length = bbl.length
        · simp [hl] at h
        · simp [hl] at h
    · intro h
      exact absurd h (by decide)
  · have hs' : is_sorted bub = false := by
      cases h : is_sorted bub
      · rfl
      · exact absurd h hs
    simp [constructInputOp, hs']

theorem construct_bucket_sorted_witness :
    constructInputOp ['a'] ([] : List Nat) 1 2 3 [5, 1] [4, 4] 6 7
        = Except.error OpError.bucketUpperBoundNotSorted :=
  (construct_bucket_sorted Nat ['a'] [] 1 2 3 [5, 1] [4, 4] 6 7).mpr (by decide)

/-- Claim C6: when the sorted-bounds check and source parsing pass,
construction fails exactly when the bucket bound and limit lists have
different lengths; the check is at construction, before any record is
pulled (modelled from the spec: the batcher constructor is outside the
given sources). -/
theorem construct_bucket_lengths (W : Type) (fp : List Char) (w : List W)
    (seed bufsz par : Int) (bub bbl : List Int) (flush nthreads : Int)
    (hs : is_sorted bub = true) (ps : List (List Char))
    (hp : filePatterns fp w = Except.ok ps) :
    constructInputOp fp w seed bufsz par bub bbl flush nthreads
        = Except.error OpError.bucketLengthMismatch
      ↔ bub.length ≠ bbl.length := by
  simp only [constructInputOp, hs, if_true, hp]
  simp only [recordBatcherNew]
  by_cases hl : bub.length = bbl.length
  · simp [hl]
  · simp [hl]

theorem construct_bucket_lengths_witness :
    constructInputOp ['a'] ([] : List Nat) 1 2 3 [1, 2] [4] 5 6
        = Except.error OpError.bucketLengthMismatch :=
  (construct_bucket_lengths Nat ['a'] [] 1 2 3 [1, 2] [4] 5 6 rfl [['a']] rfl).mpr
    (by decide)

/-- Claim C7: composing a single stream returns that stream itself with no
wrapper; a weighted mixing stream is built exactly when more than one
stream is present, and with at most one stream the front of the list is
returned unchanged. -/
theorem compose_single_identity (W : Type) :
    (∀ (seed : Int) (y : RecordYielder W) (ws : List W),
        composeYielders seed [y] ws = y)
    ∧ (∀ (seed : Int) (ys : List (RecordYielder W)) (ws : List W),
        1 < ys.length →
          composeYielders seed ys ws = RecordYielder.weightedMix seed ys ws)
    ∧ (∀ (seed : Int) (ys : List (RecordYielder W)) (ws : List W),
        ¬1 < ys.length → composeYielders seed ys ws = ys.headI) := by
  refine ⟨?_, ?_, ?_⟩
  · intro seed y ws
    simp [composeYielders, List.headI]
  · intro seed ys ws h
    simp [composeYielders, h]
  · intro seed ys ws h
    simp [composeYielders, h]

theorem compose_single_identity_witness :
    composeYielders 7 [RecordYielder.basic ⟨['a'], 1, 2, 3⟩] ([] : List Nat)
        = RecordYielder.basic ⟨['a'], 1, 2, 3⟩
    ∧ composeYielders 7
        [RecordYielder.basic ⟨['a'], 1, 2, 3⟩, RecordYielder.basic ⟨['b'], 4, 5, 6⟩]
        ([2, 3] : List Nat)
        = RecordYielder.weightedMix 7
            [RecordYielder.basic ⟨['a'], 1, 2, 3⟩, RecordYielder.basic ⟨['b'], 4, 5, 6⟩]
            [2, 3] :=
  ⟨(compose_single_identity Nat).1 7 _ _,
   (compose_single_identity Nat).2.1 7 _ _ (by decide)⟩

/-- Claim C9: whenever source parsing succeeds, so that construction reaches
stream composition, the pattern list and the constructed yielder list are
non-empty, so taking the front element of the yielder list is safe. -/
theorem yielders_nonempty (W : Type) (fp : List Char) (w : List W)
    (ps : List (List Char)) (h : filePatterns fp w = Except.ok ps)
    (seed bufsz par : Int) :
    ps ≠ [] ∧ mkYielders W seed bufsz par ps ≠ [] := by
  have hps : ps ≠ [] := by
    by_cases hw : w.isEmpty
    · simp [filePatterns, hw] at h
      subst h
      simp
    · by_cases hl : (tfSplit fp).length = w.length
      · simp [filePatterns, hw, hl] at h
        subst h
        intro hnil
        rw [hnil] at hl
        cases w with
        | nil => simp at hw
        | cons x xs => simp at hl
      · simp [filePatterns, hw, hl] at h
  refine ⟨hps, ?_⟩
  intro hmk
  apply hps
  have hlen : (mkYielders W seed bufsz par ps).length = ps.length := by
    simp [mkYielders]
  rw [hmk] at hlen
  exact List.length_eq_zero.mp hlen.symm

theorem yielders_nonempty_witness :
    ([['a']] : List (List Char)) ≠ [] ∧ mkYielders Nat 1 2 3 [['a']] ≠ [] :=
  yielders_nonempty Nat ['a'] [] [['a']] rfl 1 2 3

end Lingvo
